import Mathlib

/-!
Verification of `object_creation_c.c`, a Lua C library returning userdata handles.

Shallow embedding of `blog/object_creation_c.c`.  The C file contains two entry
points (`userdata`, `lightuserdata`), the registration array `c_functions` and
the loader `luaopen_object_creation_c`.  Everything else it touches is the Lua
C API (`lua.h`, `lauxlib.h`), which is not part of the repository; the API
primitives used by the file are modelled below from the specification and are
marked as such.

Platform assumptions (LP64): `int` is 32 bits two's complement, `size_t` is 64
bits, `lua_Integer` is 64 bits.  The host allocator refuses a block larger than
`MAX_SIZE` with its memory error and grants every other request; exhaustion of
memory by what is already allocated is not modelled.
-/

namespace ObjectCreationC

/-! ## Host data model -/

/-- Block address / object identity inside the host. -/
abbrev Addr := Nat

/-- The two C entry points of the file, as function-pointer values. -/
inductive lua_CFunction
  | userdata
  | lightuserdata
  deriving DecidableEq

/-- Modelled from the spec: the host's tagged value (`TValue` of `lua.h`, not in the
repository).  A full userdata and a light userdata are values of two different
host types; `number` is a float whose bit pattern is left uninterpreted. -/
inductive TValue
  | nil
  | boolean (b : Bool)
  | integer (i : Int)
  | number (bits : Nat)
  | string (s : String)
  | lightuserdata (p : Addr)
  | userdata (p : Addr)
  | table (p : Addr)
  | cfunction (f : lua_CFunction)
  deriving DecidableEq

/-- Modelled from the spec: an object owned by the host memory manager: either a
full-userdata block of `size` uninterpreted bytes, or a table (only string keys
are needed here). -/
inductive GCObject
  | udata (size : Nat)
  | table (fields : List (String × TValue))
  deriving DecidableEq

/-- Modelled from the spec: the host's managed-allocation state (`global_State`):
the list of all live managed objects with their addresses, newest first. -/
structure global_State where
  allgc : List (Addr × GCObject)
  deriving DecidableEq

/-- Modelled from the spec: the part of `lua_State` a C function can see: the global
state and the stack frame of the running call (index 1 is the first argument,
the top of the stack is the end of the list). -/
structure lua_State where
  l_G : global_State
  stack : List TValue
  deriving DecidableEq

/-- Modelled from the spec: errors the host can raise (by `longjmp`) out of an API
call: the "invalid-argument" error of its argument check for argument `arg`, and
the memory error of its allocator, raised for a request of `size` bytes that it
refuses. -/
inductive LuaError
  | argerror (arg : Nat)
  | memerror (size : Nat)
  deriving DecidableEq

/-- How a C function called by the host ends: it returns its number of results
(which sit on top of the stack), or an error was raised in the given state. -/
inductive Outcome
  | returned (nresults : Nat) (L : lua_State)
  | raised (e : LuaError) (L : lua_State)
  deriving DecidableEq

/-- Build-time configuration of the host that the repository does not fix:
how `lua_tointegerx` coerces a float and a string to an integer
(`luaV_flttointns`, and `l_str2int` unless the host is built with
`LUA_NOCVTS2N`).  `none` means "not convertible". -/
structure luaconf where
  flttoint : Nat → Option Int
  strtoint : String → Option Int

/-! ## Machine integers -/

def LUA_MININTEGER : Int := -(2 ^ 63)
def LUA_MAXINTEGER : Int := 2 ^ 63 - 1
def INT_MAX : Int := 2 ^ 31 - 1
def INT_MIN : Int := -(2 ^ 31)

/-- Modelled from the spec: the largest block the host allocator serves (`MAX_SIZE` of
the host's `llimits.h`, `LUA_MAXINTEGER` as a `size_t` on LP64).  The spec
leaves "a negative or excessively large value" to "the host allocator's own
behavior"; the sizes this library can request are `0 .. 2^31 - 1` and
`2^64 - 2^31 .. 2^64 - 1`, so any limit between the two ranges gives the same
behaviour. -/
def MAX_SIZE : Nat := 9223372036854775807

/-- The conversion `lua_Integer -> int` performed by the initialisation
`int size = luaL_checkinteger(L, 1);` (line 9): the value is reduced modulo
`2^32` into the range of a signed 32-bit `int` (the conversion is
implementation-defined in C; gcc and clang reduce modulo `2^32`). -/
def int_of_lua_Integer (d : Int) : Int :=
  if d % 2 ^ 32 < 2 ^ 31 then d % 2 ^ 32 else d % 2 ^ 32 - 2 ^ 32

/-- The conversion `int -> size_t` performed when `size` is passed as the second
argument of `lua_newuserdata(L, size)` (line 10): reduction modulo `2^64`. -/
def size_t_of_int (i : Int) : Nat :=
  (i % 2 ^ 64).toNat

/-! ## Host API used by the file -/

/-- Modelled from the spec: stack access by 1-based index inside the current frame;
`none` is an absent argument (`LUA_TNONE`). -/
def index2value (L : lua_State) (idx : Nat) : Option TValue :=
  if idx = 0 then none else L.stack.get? (idx - 1)

/-- Modelled from the spec: `lua_tointegerx` on a value: an integer is itself, a float
or a string is coerced as the host is configured, nothing else is
integer-coercible. -/
def tointeger (conf : luaconf) : TValue → Option Int
  | .integer i => some i
  | .number bits => conf.flttoint bits
  | .string s => conf.strtoint s
  | _ => none

/-- Modelled from the spec: `luaL_checkinteger(L, arg)` of `lauxlib.h`: "the binding
fails the call with a type/argument error if the argument is missing or not
integer-coercible"; otherwise it yields the integer.  It does not touch the
state. -/
def luaL_checkinteger (conf : luaconf) (L : lua_State) (arg : Nat) : Except LuaError Int :=
  match index2value L arg with
  | none => .error (.argerror arg)
  | some v =>
    match tointeger conf v with
    | none => .error (.argerror arg)
    | some d => .ok d

/-- Largest address in use among the managed objects (0 when there are none). -/
def maxaddr : List (Addr × GCObject) → Addr
  | [] => 0
  | o :: os => max o.1 (maxaddr os)

/-- Modelled from the spec: the address the host allocator hands out next: "each
call is a fresh, independently owned allocation", so it is an address that no
live object has. -/
def newaddr (g : global_State) : Addr :=
  maxaddr g.allgc + 1

/-- Modelled from the spec: `lua_newuserdata(L, size)` of `lua.h`: "requests a block
of memory of the given size from the host runtime's managed-allocation
facility, tagging it as an opaque handle type", pushes the handle and returns
the block address.  A size above `MAX_SIZE` is refused with the host's memory
error before anything is allocated or pushed. -/
def lua_newuserdata (L : lua_State) (size : Nat) : Except LuaError (Addr × lua_State) :=
  if MAX_SIZE < size then .error (.memerror size)
  else
    let p := newaddr L.l_G
    .ok (p, ⟨⟨(p, .udata size) :: L.l_G.allgc⟩, L.stack ++ [.userdata p]⟩)

/-- Modelled from the spec: `lua_pushlightuserdata(L, p)` of `lua.h`: pushes the
pointer `p` as a light userdata; nothing is allocated. -/
def lua_pushlightuserdata (L : lua_State) (p : Addr) : lua_State :=
  ⟨L.l_G, L.stack ++ [.lightuserdata p]⟩

/-! ## The C file -/

/-- The function `int userdata(lua_State *L)`, lines 8-12. -/
def userdata (conf : luaconf) (L : lua_State) : Outcome :=
  match luaL_checkinteger conf L 1 with
  | .error e => .raised e L
  | .ok d =>
    let size : Int := int_of_lua_Integer d
    match lua_newuserdata L (size_t_of_int size) with
    | .error e => .raised e L
    | .ok r => .returned 1 r.2

/-- The function `int lightuserdata(lua_State *L)`, lines 14-18.  The parameter `x` is the
address of the function's `static int x`, fixed when the library is loaded. -/
def lightuserdata (x : Addr) (L : lua_State) : Outcome :=
  let L1 := lua_pushlightuserdata L x
  .returned 1 L1

/-- Element type of a registration array (`luaL_Reg` of `lauxlib.h`): a name and
a function pointer, either of which may be `NULL` (`none`). -/
structure luaL_Reg where
  name : Option String
  func : Option lua_CFunction
  deriving DecidableEq

/-- The array `static const luaL_Reg c_functions[]`, lines 20-24, with its
`{NULL, NULL}` sentinel. -/
def c_functions : List luaL_Reg :=
  [⟨some "userdata", some .userdata⟩,
   ⟨some "lightuserdata", some .lightuserdata⟩,
   ⟨none, none⟩]

/-- Modelled from the spec: `lua_setfield` on the fields of a table: store `v`
under the string key `k`; an existing key is overwritten, a new key is added. -/
def setfield (k : String) (v : TValue) : List (String × TValue) → List (String × TValue)
  | [] => [(k, v)]
  | kv :: rest => if kv.1 = k then (k, v) :: rest else kv :: setfield k v rest

/-- Modelled from the spec: `lua_getfield` on the fields of a table: read the string
key `k`; an absent key reads as `nil`. -/
def getfield (k : String) : List (String × TValue) → TValue
  | [] => .nil
  | kv :: rest => if kv.1 = k then kv.2 else getfield k rest

/-- Modelled from the spec: the loop of `luaL_setfuncs(L, l, 0)` of `lauxlib.h`: walks
the array up to the first entry whose name is `NULL` and stores each function
under its name in the table being filled. -/
def luaL_setfuncs : List luaL_Reg → List (String × TValue) → List (String × TValue)
  | [], t => t
  | ⟨none, _⟩ :: _, t => t
  | ⟨some k, f⟩ :: rest, t =>
    luaL_setfuncs rest (setfield k (match f with | some c => .cfunction c | none => .nil) t)

/-- Modelled from the spec: the macro `luaL_newlib(L, l)` of `lauxlib.h`: the
"single load-time registration call", "producing a namespace/table object": it
creates a new table, fills it by `luaL_setfuncs` and leaves it on top of the
stack.  The table has a small fixed size, which the allocator grants. -/
def luaL_newlib (L : lua_State) (l : List luaL_Reg) : lua_State :=
  let p := newaddr L.l_G
  ⟨⟨(p, .table (luaL_setfuncs l [])) :: L.l_G.allgc⟩, L.stack ++ [.table p]⟩

/-- The loader `int luaopen_object_creation_c(lua_State *L)`, lines 26-29. -/
def luaopen_object_creation_c (L : lua_State) : Outcome :=
  let L1 := luaL_newlib L c_functions
  .returned 1 L1

/-! ## The host calling into the library -/

/-- The code a function pointer of the registration table points to. -/
def lua_CFunction.code (conf : luaconf) (x : Addr) : lua_CFunction → lua_State → Outcome
  | .userdata => ObjectCreationC.userdata conf
  | .lightuserdata => ObjectCreationC.lightuserdata x

/-- The object stored at address `p`, if any. -/
def getobj (g : global_State) (p : Addr) : Option GCObject :=
  (g.allgc.find? (fun o => o.1 = p)).map (fun o => o.2)

/-- Modelled from the spec: `lua_rawlen` on a handle: "the handle's reported size (if
queryable by the host)": the byte size of the block of a full userdata. -/
def lua_rawlen (g : global_State) : TValue → Option Nat
  | .userdata p =>
    match getobj g p with
    | some (.udata size) => some size
    | _ => none
  | _ => none

/-- Modelled from the spec: `lua_getfield` on a handle: field `k` of the table the
value refers to, when it refers to one. -/
def lua_getfield (g : global_State) (t : TValue) (k : String) : Option TValue :=
  match t with
  | .table p =>
    match getobj g p with
    | some (.table fields) => some (getfield k fields)
    | _ => none
  | _ => none

/-- Modelled from the spec: the host call convention: the host runs a C function on a
fresh frame holding the arguments; when the function returns `n`, the `n`
topmost stack values are the results of the call; when it raises, the call has
no result.  Either way the host continues with the global state left behind. -/
def lua_call (f : lua_State → Outcome) (g : global_State) (args : List TValue) :
    Except LuaError (List TValue) × global_State :=
  match f ⟨g, args⟩ with
  | .returned n L => (.ok (L.stack.drop (L.stack.length - n)), L.l_G)
  | .raised e L => (.error e, L.l_G)

/-- A sequence of calls of the same function, one per argument list, each one
starting from the global state the previous one left. -/
def callSeq (f : lua_State → Outcome) :
    global_State → List (List TValue) → List (Except LuaError (List TValue)) × global_State
  | g, [] => ([], g)
  | g, args :: rest =>
    let r := lua_call f g args
    let rs := callSeq f r.2 rest
    (r.1 :: rs.1, rs.2)

/-- The handles returned by the successful calls of a sequence, in call order. -/
def handles : List (Except LuaError (List TValue)) → List TValue
  | [] => []
  | .ok vs :: rest => vs ++ handles rest
  | .error _ :: rest => handles rest

/-- A host configured without any coercion: only integers pass
`luaL_checkinteger`. -/
def strictconf : luaconf := ⟨fun _ => none, fun _ => none⟩

/-! ## Auxiliary facts -/

theorem size_t_of_int_of_lua_Integer (n : Int) :
    (size_t_of_int (int_of_lua_Integer n) : Int) =
      if n % 2 ^ 32 < 2 ^ 31 then n % 2 ^ 32 else 2 ^ 64 - 2 ^ 32 + n % 2 ^ 32 := by
  unfold size_t_of_int int_of_lua_Integer
  split <;> omega

theorem userdata_of_checked (conf : luaconf) (L : lua_State) (d : Int)
    (h : luaL_checkinteger conf L 1 = .ok d)
    (hsz : size_t_of_int (int_of_lua_Integer d) ≤ MAX_SIZE) :
    userdata conf L = .returned 1
      ⟨⟨(newaddr L.l_G, .udata (size_t_of_int (int_of_lua_Integer d))) :: L.l_G.allgc⟩,
       L.stack ++ [.userdata (newaddr L.l_G)]⟩ := by
  simp [userdata, h, lua_newuserdata, Nat.not_lt.mpr hsz]

theorem userdata_of_refused (conf : luaconf) (L : lua_State) (d : Int)
    (h : luaL_checkinteger conf L 1 = .ok d)
    (hsz : MAX_SIZE < size_t_of_int (int_of_lua_Integer d)) :
    userdata conf L = .raised (.memerror (size_t_of_int (int_of_lua_Integer d))) L := by
  simp [userdata, h, lua_newuserdata, hsz]

theorem userdata_of_rejected (conf : luaconf) (L : lua_State) (e : LuaError)
    (h : luaL_checkinteger conf L 1 = .error e) :
    userdata conf L = .raised e L := by
  simp [userdata, h]

theorem checkinteger_error (conf : luaconf) (L : lua_State) (e : LuaError)
    (h : luaL_checkinteger conf L 1 = .error e) : e = .argerror 1 := by
  unfold luaL_checkinteger at h
  split at h
  · injection h with h; exact h.symm
  · split at h
    · injection h with h; exact h.symm
    · cases h

theorem checkinteger_integer (conf : luaconf) (g : global_State) (n : Int)
    (rest : List TValue) :
    luaL_checkinteger conf ⟨g, .integer n :: rest⟩ 1 = .ok n := by
  simp [luaL_checkinteger, index2value, tointeger]

theorem getobj_head (p : Addr) (o : GCObject) (os : List (Addr × GCObject)) :
    getobj ⟨(p, o) :: os⟩ p = some o := by
  simp [getobj]

theorem le_maxaddr (os : List (Addr × GCObject)) (o : Addr × GCObject) (h : o ∈ os) :
    o.1 ≤ maxaddr os := by
  induction os with
  | nil => cases h
  | cons a as ih =>
    rcases List.mem_cons.mp h with h | h
    · subst h
      exact Nat.le_max_left _ _
    · exact Nat.le_trans (ih h) (Nat.le_max_right _ _)

theorem getobj_of_maxaddr_lt (g : global_State) (p : Addr) (h : maxaddr g.allgc < p) :
    getobj g p = none := by
  unfold getobj
  rw [Option.map_eq_none', List.find?_eq_none]
  intro o ho heq
  have h1 := le_maxaddr g.allgc o ho
  have h2 : o.1 = p := by simpa using heq
  rw [h2] at h1
  exact Nat.lt_irrefl _ (Nat.lt_of_lt_of_le h h1)

theorem getobj_newaddr (g : global_State) : getobj g (newaddr g) = none :=
  getobj_of_maxaddr_lt g (newaddr g) (Nat.lt_succ_self _)

theorem lua_call_userdata (conf : luaconf) (g : global_State) (args : List TValue) :
    (∃ e, lua_call (userdata conf) g args = (.error e, g))
    ∨ ∃ sz, lua_call (userdata conf) g args
        = (.ok [.userdata (newaddr g)], ⟨(newaddr g, .udata sz) :: g.allgc⟩) := by
  cases hchk : luaL_checkinteger conf ⟨g, args⟩ 1 with
  | error e =>
    left
    exact ⟨e, by simp [lua_call, userdata_of_rejected conf _ _ hchk]⟩
  | ok d =>
    by_cases hsz : MAX_SIZE < size_t_of_int (int_of_lua_Integer d)
    · left
      exact ⟨.memerror (size_t_of_int (int_of_lua_Integer d)),
        by simp [lua_call, userdata_of_refused conf _ d hchk hsz]⟩
    · right
      refine ⟨size_t_of_int (int_of_lua_Integer d), ?_⟩
      simp [lua_call, userdata_of_checked conf _ d hchk (Nat.not_lt.mp hsz)]

theorem handles_callSeq_userdata_gt (conf : luaconf) (argss : List (List TValue)) :
    ∀ (g : global_State) (h : TValue),
      h ∈ handles (callSeq (userdata conf) g argss).1 →
      ∃ p, h = .userdata p ∧ maxaddr g.allgc < p := by
  induction argss with
  | nil => intro g h hm; simp [callSeq, handles] at hm
  | cons args rest ih =>
    intro g h hm
    rcases lua_call_userdata conf g args with ⟨e, hc⟩ | ⟨sz, hc⟩
    · simp only [callSeq, hc, handles] at hm
      exact ih g h hm
    · simp only [callSeq, hc, handles, List.mem_append, List.mem_singleton] at hm
      rcases hm with hm | hm
      · exact ⟨newaddr g, hm, Nat.lt_succ_self _⟩
      · obtain ⟨p, hp, hlt⟩ := ih _ h hm
        refine ⟨p, hp, ?_⟩
        simp only [maxaddr] at hlt
        exact Nat.lt_of_le_of_lt (Nat.le_max_right _ _) hlt

theorem getfield_c_functions (name : String) :
    getfield name (luaL_setfuncs c_functions [])
      = if name = "userdata" then .cfunction .userdata
        else if name = "lightuserdata" then .cfunction .lightuserdata
        else .nil := by
  have ht : luaL_setfuncs c_functions []
      = [("userdata", .cfunction .userdata), ("lightuserdata", .cfunction .lightuserdata)] := by
    decide
  rw [ht]
  by_cases h1 : name = "userdata"
  · subst h1
    simp [getfield]
  · by_cases h2 : name = "lightuserdata"
    · subst h2
      simp [getfield]
    · have h1' : ¬ "userdata" = name := fun h => h1 h.symm
      have h2' : ¬ "lightuserdata" = name := fun h => h2 h.symm
      simp [getfield, h1, h2, h1', h2']

/-! ## Claims -/

/-- C10: for every 64-bit integer `n` that passes the argument check, the size
`userdata` passes to the host allocator is `m` bytes when `m < 2^31` and
`2^64 - 2^32 + m` bytes otherwise, where `m = n mod 2^32`: a block of exactly
that size is allocated for the handle, or, when the host refuses the size,
exactly that size is the refused request.  It is `n` exactly when
`0 <= n <= 2^31 - 1`, it is at least `2^64 - 2^31` for a negative `n` in `int`
range, and it is `0` for `n = 2^32`. -/
theorem userdata_requested_size (conf : luaconf) (L : lua_State) (n : Int)
    (hchk : luaL_checkinteger conf L 1 = .ok n)
    (hlo : LUA_MININTEGER ≤ n) (hhi : n ≤ LUA_MAXINTEGER) :
    ∃ sz : Nat,
      userdata conf L =
        (if MAX_SIZE < sz then .raised (.memerror sz) L
         else .returned 1
          ⟨⟨(newaddr L.l_G, .udata sz) :: L.l_G.allgc⟩,
           L.stack ++ [.userdata (newaddr L.l_G)]⟩)
      ∧ (sz : Int) = (if n % 2 ^ 32 < 2 ^ 31 then n % 2 ^ 32 else 2 ^ 64 - 2 ^ 32 + n % 2 ^ 32)
      ∧ ((sz : Int) = n ↔ 0 ≤ n ∧ n ≤ 2 ^ 31 - 1)
      ∧ (INT_MIN ≤ n → n < 0 → 2 ^ 64 - 2 ^ 31 ≤ (sz : Int))
      ∧ (n = 2 ^ 32 → sz = 0) := by
  refine ⟨size_t_of_int (int_of_lua_Integer n), ?_,
    size_t_of_int_of_lua_Integer n, ?_, ?_, ?_⟩
  · by_cases hsz : MAX_SIZE < size_t_of_int (int_of_lua_Integer n)
    · rw [if_pos hsz]
      exact userdata_of_refused conf L n hchk hsz
    · rw [if_neg hsz]
      exact userdata_of_checked conf L n hchk (Nat.not_lt.mp hsz)
  · rw [size_t_of_int_of_lua_Integer]
    unfold LUA_MININTEGER at hlo
    unfold LUA_MAXINTEGER at hhi
    split <;> omega
  · intro h1 h2
    rw [size_t_of_int_of_lua_Integer]
    unfold INT_MIN at h1
    split <;> omega
  · intro h
    subst h
    decide

/-- Witness of C10 at `n = -1` on an empty host: `2^64 - 1` bytes are requested,
which the host refuses. -/
theorem userdata_requested_size_witness :
    luaL_checkinteger strictconf ⟨⟨[]⟩, [.integer (-1)]⟩ 1 = .ok (-1)
    ∧ LUA_MININTEGER ≤ (-1 : Int) ∧ (-1 : Int) ≤ LUA_MAXINTEGER
    ∧ ∃ sz : Nat,
      userdata strictconf ⟨⟨[]⟩, [.integer (-1)]⟩ =
        (if MAX_SIZE < sz then .raised (.memerror sz) ⟨⟨[]⟩, [.integer (-1)]⟩
         else .returned 1 ⟨⟨[(1, .udata sz)]⟩, [.integer (-1), .userdata 1]⟩)
      ∧ (sz : Int) = 2 ^ 64 - 1 :=
  ⟨rfl, by decide, by decide,
    match userdata_requested_size strictconf ⟨⟨[]⟩, [.integer (-1)]⟩ (-1) rfl
        (by decide) (by decide) with
    | ⟨sz, h1, h2, _⟩ => ⟨sz, h1, by rw [h2]; decide⟩⟩

/-- C1 (as stated, refuted): `userdata(2^32)` on an empty host returns a handle
whose block was requested with 0 bytes, not `2^32`, although `2^32` is a
non-negative `lua_Integer`. -/
theorem userdata_size_truncated :
    (0 : Int) ≤ 4294967296 ∧ (4294967296 : Int) ≤ LUA_MAXINTEGER
    ∧ userdata strictconf ⟨⟨[]⟩, [.integer 4294967296]⟩
        = .returned 1 ⟨⟨[(1, .udata 0)]⟩, [.integer 4294967296, .userdata 1]⟩
    ∧ lua_rawlen ⟨[(1, .udata 0)]⟩ (.userdata 1) = some 0
    ∧ (0 : Int) ≠ 4294967296 := by
  decide

/-- C1 (amended): for every integer `n` with `0 <= n <= INT_MAX = 2^31 - 1`,
`userdata(n)` returns one handle, the block requested from the host allocator
for it has exactly `n` bytes, and that is the size the host reports for the
handle. -/
theorem userdata_size_in_int_range (conf : luaconf) (g : global_State)
    (rest : List TValue) (n : Int) (h0 : 0 ≤ n) (h1 : n ≤ INT_MAX) :
    userdata conf ⟨g, .integer n :: rest⟩ = .returned 1
      ⟨⟨(newaddr g, .udata n.toNat) :: g.allgc⟩,
       .integer n :: rest ++ [.userdata (newaddr g)]⟩
    ∧ lua_rawlen ⟨(newaddr g, .udata n.toNat) :: g.allgc⟩ (.userdata (newaddr g))
        = some n.toNat
    ∧ (n.toNat : Int) = n := by
  have hsz : size_t_of_int (int_of_lua_Integer n) = n.toNat := by
    have h := size_t_of_int_of_lua_Integer n
    unfold INT_MAX at h1
    split at h <;> omega
  have hle : size_t_of_int (int_of_lua_Integer n) ≤ MAX_SIZE := by
    rw [hsz]
    unfold INT_MAX at h1
    unfold MAX_SIZE
    omega
  refine ⟨?_, ?_, by omega⟩
  · rw [userdata_of_checked conf _ n (checkinteger_integer conf g n rest) hle, hsz]
  · simp [lua_rawlen, getobj_head]

/-- Witness of the amended C1 at `n = 1024` on an empty host. -/
theorem userdata_size_in_int_range_witness :
    (0 : Int) ≤ 1024 ∧ (1024 : Int) ≤ INT_MAX
    ∧ userdata strictconf ⟨⟨[]⟩, [.integer 1024]⟩
        = .returned 1 ⟨⟨[(1, .udata 1024)]⟩, [.integer 1024, .userdata 1]⟩ :=
  ⟨by decide, by decide,
    (userdata_size_in_int_range strictconf ⟨[]⟩ [] 1024 (by decide) (by decide)).1⟩

/-- C2: when the first argument of `userdata` is missing, or is a value the host
does not accept as an integer (for instance a string it cannot coerce), the call
raises the invalid-argument error for argument 1 in the unchanged state: nothing
has been allocated or pushed, and the host gets an error and no handle. -/
theorem userdata_invalid_argument (conf : luaconf) (L : lua_State)
    (h : index2value L 1 = none
      ∨ ∃ v, index2value L 1 = some v ∧ tointeger conf v = none) :
    userdata conf L = .raised (.argerror 1) L
    ∧ lua_call (userdata conf) L.l_G L.stack = (.error (.argerror 1), L.l_G) := by
  have hchk : luaL_checkinteger conf L 1 = .error (.argerror 1) := by
    rcases h with h | ⟨v, hv, hn⟩
    · simp [luaL_checkinteger, h]
    · simp [luaL_checkinteger, hv, hn]
  have hu := userdata_of_rejected conf L _ hchk
  refine ⟨hu, ?_⟩
  unfold lua_call
  rw [show (⟨L.l_G, L.stack⟩ : lua_State) = L from rfl, hu]

/-- Witness of C2: a string argument on a host that coerces no strings. -/
theorem userdata_invalid_argument_witness :
    (index2value ⟨⟨[]⟩, [.string "abc"]⟩ 1 = none
      ∨ ∃ v, index2value ⟨⟨[]⟩, [.string "abc"]⟩ 1 = some v
          ∧ tointeger strictconf v = none)
    ∧ userdata strictconf ⟨⟨[]⟩, [.string "abc"]⟩
        = .raised (.argerror 1) ⟨⟨[]⟩, [.string "abc"]⟩
    ∧ lua_call (userdata strictconf) ⟨[]⟩ [.string "abc"]
        = (.error (.argerror 1), ⟨[]⟩) :=
  ⟨Or.inr ⟨.string "abc", rfl, rfl⟩,
    userdata_invalid_argument strictconf ⟨⟨[]⟩, [.string "abc"]⟩
      (Or.inr ⟨.string "abc", rfl, rfl⟩)⟩

/-- C3: in any sequence of `userdata` calls started from any host state, the
handles returned by the calls that succeed are pairwise distinct (also when the
same size is asked again), and each of them is a full userdata at an address
that held no object when the sequence started. -/
theorem userdata_handles_distinct (conf : luaconf) (g : global_State)
    (argss : List (List TValue)) :
    (handles (callSeq (userdata conf) g argss).1).Nodup
    ∧ ∀ h ∈ handles (callSeq (userdata conf) g argss).1,
        ∃ p, h = .userdata p ∧ getobj g p = none := by
  constructor
  · induction argss generalizing g with
    | nil => simp [callSeq, handles]
    | cons args rest ih =>
      rcases lua_call_userdata conf g args with ⟨e, hc⟩ | ⟨sz, hc⟩
      · simp only [callSeq, hc, handles]
        exact ih g
      · simp only [callSeq, hc, handles, List.singleton_append, List.nodup_cons]
        refine ⟨?_, ih _⟩
        intro hm
        obtain ⟨p, hp, hlt⟩ := handles_callSeq_userdata_gt conf rest _ _ hm
        injection hp with hp
        simp only [maxaddr] at hlt
        rw [← hp] at hlt
        exact Nat.lt_irrefl _ (Nat.lt_of_le_of_lt (Nat.le_max_left _ _) hlt)
  · intro h hm
    obtain ⟨p, hp, hlt⟩ := handles_callSeq_userdata_gt conf argss g h hm
    exact ⟨p, hp, getobj_of_maxaddr_lt g p hlt⟩

/-- C4: every call of `lightuserdata`, from any host state and with any
arguments, returns the same handle, the light userdata holding the address of
the static slot `x`; and the handle `userdata(0)` returns, a full userdata, is
different from it. -/
theorem lightuserdata_same_identity (conf : luaconf) (x : Addr)
    (g1 g2 g3 : global_State) (args1 args2 rest : List TValue) :
    lua_call (lightuserdata x) g1 args1 = (.ok [.lightuserdata x], g1)
    ∧ lua_call (lightuserdata x) g2 args2 = (.ok [.lightuserdata x], g2)
    ∧ (lua_call (userdata conf) g3 (.integer 0 :: rest)).1 = .ok [.userdata (newaddr g3)]
    ∧ TValue.userdata (newaddr g3) ≠ TValue.lightuserdata x := by
  refine ⟨?_, ?_, ?_, ?_⟩
  · simp [lua_call, lightuserdata, lua_pushlightuserdata]
  · simp [lua_call, lightuserdata, lua_pushlightuserdata]
  · simp [lua_call, userdata_of_checked conf _ 0 (checkinteger_integer conf g3 0 rest)
      (by decide)]
  · intro h
    cases h

/-- C5: a call of `lightuserdata` returns 1 and leaves the host's managed objects
exactly as they were, its only effect being the handle pushed on the stack; so
any sequence of such calls (for instance 1000 of them) ends in the global state
it started from, every call having returned the same handle. -/
theorem lightuserdata_no_allocation (x : Addr) (L : lua_State) (g : global_State)
    (argss : List (List TValue)) :
    lightuserdata x L = .returned 1 ⟨L.l_G, L.stack ++ [.lightuserdata x]⟩
    ∧ callSeq (lightuserdata x) g argss
        = (argss.map (fun _ => .ok [.lightuserdata x]), g) := by
  refine ⟨rfl, ?_⟩
  induction argss with
  | nil => rfl
  | cons args rest ih =>
    have hc : lua_call (lightuserdata x) g args = (.ok [.lightuserdata x], g) := by
      simp [lua_call, lightuserdata, lua_pushlightuserdata]
    simp [callSeq, hc, ih]

/-- C7: the loader returns exactly one value, a new table on top of the stack; in
that table the name "userdata" reads the entry point `userdata`, the name
"lightuserdata" reads the entry point `lightuserdata`, and every other name reads
`nil`; the two names are different, and the array holds these two entries before
its sentinel. -/
theorem registration_table (conf : luaconf) (x : Addr) (L : lua_State) (name : String) :
    luaopen_object_creation_c L = .returned 1
      ⟨⟨(newaddr L.l_G, .table [("userdata", .cfunction .userdata),
                                ("lightuserdata", .cfunction .lightuserdata)])
          :: L.l_G.allgc⟩,
       L.stack ++ [.table (newaddr L.l_G)]⟩
    ∧ lua_getfield
        ⟨(newaddr L.l_G, .table [("userdata", .cfunction .userdata),
                                 ("lightuserdata", .cfunction .lightuserdata)])
          :: L.l_G.allgc⟩
        (.table (newaddr L.l_G)) name
      = some (if name = "userdata" then .cfunction .userdata
              else if name = "lightuserdata" then .cfunction .lightuserdata
              else .nil)
    ∧ "userdata" ≠ "lightuserdata"
    ∧ c_functions.map (fun r => r.name) = [some "userdata", some "lightuserdata", none]
    ∧ lua_CFunction.code conf x .userdata = userdata conf
    ∧ lua_CFunction.code conf x .lightuserdata = lightuserdata x := by
  have ht : luaL_setfuncs c_functions []
      = [("userdata", .cfunction .userdata), ("lightuserdata", .cfunction .lightuserdata)] := by
    decide
  refine ⟨?_, ?_, by decide, by decide, rfl, rfl⟩
  · simp [luaopen_object_creation_c, luaL_newlib, ht]
  · simp only [lua_getfield, getobj_head]
    rw [← ht, getfield_c_functions]

/-- C8: run from two host states with the same argument list, `userdata` either
raises the same error in both (leaving each state as it was) or returns in both
a handle to a block of the same size, each state gaining that one block at an
address that was free, with its other objects and the arguments untouched; and
`lightuserdata` returns the same handle in both, changing nothing but the
stack. -/
theorem deterministic_and_pure (conf : luaconf) (x : Addr) (g1 g2 : global_State)
    (args : List TValue) :
    ((∃ e, userdata conf ⟨g1, args⟩ = .raised e ⟨g1, args⟩
          ∧ userdata conf ⟨g2, args⟩ = .raised e ⟨g2, args⟩)
      ∨ (∃ sz,
          userdata conf ⟨g1, args⟩ = .returned 1
            ⟨⟨(newaddr g1, .udata sz) :: g1.allgc⟩, args ++ [.userdata (newaddr g1)]⟩
          ∧ userdata conf ⟨g2, args⟩ = .returned 1
            ⟨⟨(newaddr g2, .udata sz) :: g2.allgc⟩, args ++ [.userdata (newaddr g2)]⟩))
    ∧ getobj g1 (newaddr g1) = none ∧ getobj g2 (newaddr g2) = none
    ∧ lightuserdata x ⟨g1, args⟩ = .returned 1 ⟨g1, args ++ [.lightuserdata x]⟩
    ∧ lightuserdata x ⟨g2, args⟩ = .returned 1 ⟨g2, args ++ [.lightuserdata x]⟩ := by
  refine ⟨?_, getobj_newaddr g1, getobj_newaddr g2, rfl, rfl⟩
  have hsame : luaL_checkinteger conf ⟨g2, args⟩ 1 = luaL_checkinteger conf ⟨g1, args⟩ 1 := rfl
  cases hchk : luaL_checkinteger conf ⟨g1, args⟩ 1 with
  | error e =>
    left
    exact ⟨e, userdata_of_rejected conf _ e hchk,
      userdata_of_rejected conf _ e (hsame.trans hchk)⟩
  | ok d =>
    by_cases hsz : MAX_SIZE < size_t_of_int (int_of_lua_Integer d)
    · left
      exact ⟨_, userdata_of_refused conf _ d hchk hsz,
        userdata_of_refused conf _ d (hsame.trans hchk) hsz⟩
    · right
      exact ⟨_, userdata_of_checked conf _ d hchk (Nat.not_lt.mp hsz),
        userdata_of_checked conf _ d (hsame.trans hchk) (Nat.not_lt.mp hsz)⟩

/-- C9: `lightuserdata` always, and `userdata` whenever it does not raise, reports
a result count of 1 and ends with the stack it was called with plus exactly one
value on top, the handle; the host receives exactly that one value.  When
`userdata` raises (the invalid-argument error, or the memory error of a refused
request), the stack and the global state are the ones it was called with. -/
theorem exactly_one_result (conf : luaconf) (x : Addr) (L : lua_State) :
    lightuserdata x L = .returned 1 ⟨L.l_G, L.stack ++ [.lightuserdata x]⟩
    ∧ lua_call (lightuserdata x) L.l_G L.stack = (.ok [.lightuserdata x], L.l_G)
    ∧ (userdata conf L = .raised (.argerror 1) L
      ∨ (∃ sz, userdata conf L = .raised (.memerror sz) L)
      ∨ ∃ g, userdata conf L = .returned 1 ⟨g, L.stack ++ [.userdata (newaddr L.l_G)]⟩
          ∧ lua_call (userdata conf) L.l_G L.stack = (.ok [.userdata (newaddr L.l_G)], g)) := by
  refine ⟨rfl, ?_, ?_⟩
  · simp [lua_call, lightuserdata, lua_pushlightuserdata]
  · cases hchk : luaL_checkinteger conf L 1 with
    | error e =>
      left
      have he := checkinteger_error conf L e hchk
      subst he
      exact userdata_of_rejected conf L _ hchk
    | ok d =>
      right
      by_cases hsz : MAX_SIZE < size_t_of_int (int_of_lua_Integer d)
      · left
        exact ⟨_, userdata_of_refused conf L d hchk hsz⟩
      · right
        have hu := userdata_of_checked conf L d hchk (Nat.not_lt.mp hsz)
        refine ⟨_, hu, ?_⟩
        unfold lua_call
        rw [show (⟨L.l_G, L.stack⟩ : lua_State) = L from rfl, hu]
        simp

end ObjectCreationC
